import Mathlib

/-
Verification of ForwardOptimal, a latency-aware TCP failover relay.

The development shallowly embeds the Go sources:
- `main.go`: health probing (`checkNodeHealth`), selection (`updateBestTarget`,
  `bestTarget`), the monitor cadence (`allNodesFailed`, interval choice) and
  configuration defaulting (`loadConfig`).
- the relay/pool/encoder file: `TargetPool.Get`/`Put`, `getOrCreatePool`,
  `ProxyProtocolV1.Generate`, `ProxyProtocolV2.Generate`, `getProxyProtocol`,
  `forwardTCP`.

Machine integers are modelled as `Nat` with explicit `% 2^w` where Go
truncates (`uint16`/`uint32` conversions).  Network effects (dialing,
closing connections, deadlines) are modelled by explicit state passing
through a `World` record; the dial environment is a function parameter.
Wall-clock timestamps (`LastCheck`) and the byte-copy phase of a relay
session are not modelled; no claim refers to them.
-/

namespace ForwardOptimal

/-! ### Addresses: Go `net.IP` and `net.TCPAddr` -/

/-- Go `net.IP`: a byte slice, 4 bytes (IPv4) or 16 bytes (IPv6). -/
abbrev IPBytes := List Nat

/-- Go `net.IP.To4`: the 4-byte form when the address is expressible as IPv4
(a 4-byte address, or a 16-byte address with the v4-in-v6 mapping
`0,0,0,0,0,0,0,0,0,0,0xFF,0xFF`), otherwise `none` (Go: `nil`). -/
def ipTo4 (ip : IPBytes) : Option IPBytes :=
  if ip.length = 4 then some ip
  else if ip.length = 16 ∧ ip.take 10 = List.replicate 10 0
          ∧ ip.getD 10 0 = 0xFF ∧ ip.getD 11 0 = 0xFF then
    some (ip.drop 12)
  else none

/-- Go `net.IP.To16`: the 16-byte form (IPv4 addresses get the v4-in-v6
mapping), `none` (Go: `nil`) for slices that are neither 4 nor 16 bytes. -/
def ipTo16 (ip : IPBytes) : Option IPBytes :=
  if ip.length = 4 then some (List.replicate 10 0 ++ [0xFF, 0xFF] ++ ip)
  else if ip.length = 16 then some ip
  else none

/-- Go `net.TCPAddr` (the `Zone` field is unused by the sources). -/
structure TCPAddr where
  ip : IPBytes
  port : Nat
deriving DecidableEq, Repr

/-! ### Big-endian encoding: Go `binary.BigEndian.PutUint16/PutUint32`
applied to `uint16`/`uint32` conversions of `int` values. -/

/-- Big-endian bytes of `uint16(n)`. -/
def be16 (n : Nat) : List Nat := [n % 2 ^ 16 / 2 ^ 8, n % 2 ^ 8]

/-- Big-endian bytes of `uint32(n)`. -/
def be32 (n : Nat) : List Nat :=
  [n % 2 ^ 32 / 2 ^ 24, n % 2 ^ 24 / 2 ^ 16, n % 2 ^ 16 / 2 ^ 8, n % 2 ^ 8]

/-- Go `copy(dst16, src)` into a zeroed 16-byte region: copies at most 16
bytes of `src` (none at all when `src` is `nil`), the rest stays zero. -/
def copy16 (src : Option IPBytes) : List Nat :=
  match src with
  | none => List.replicate 16 0
  | some l => l.take 16 ++ List.replicate (16 - l.length) 0

/-- Go `uint32(b0)<<24 | uint32(b1)<<16 | uint32(b2)<<8 | uint32(b3)` over the
four bytes of a `To4` result. -/
def bytesToNat32 (l : List Nat) : Nat :=
  l.getD 0 0 * 2 ^ 24 + l.getD 1 0 * 2 ^ 16 + l.getD 2 0 * 2 ^ 8 + l.getD 3 0

/-- The 12-byte PROXY v2 signature `\r\n\r\n\0\r\nQUIT\n`. -/
def proxyV2Sig : List Nat :=
  [0x0D, 0x0A, 0x0D, 0x0A, 0x00, 0x0D, 0x0A, 0x51, 0x55, 0x49, 0x54, 0x0A]

namespace ProxyProtocolV2

/-- Embeds `ProxyProtocolV2.Generate`: builds the binary PROXY v2 header from
the client connection's remote address and the target connection's remote
address.  `isIPv6 := clientAddr.IP.To4() == nil || targetAddr.IP.To4() == nil`
selects the 52-byte IPv6 layout, otherwise the 28-byte IPv4 layout. -/
def Generate (clientAddr targetAddr : TCPAddr) : List Nat :=
  match ipTo4 clientAddr.ip, ipTo4 targetAddr.ip with
  | some c4, some t4 =>
      proxyV2Sig ++ [0x21, 0x11] ++ be16 12
        ++ be32 (bytesToNat32 c4) ++ be32 (bytesToNat32 t4)
        ++ be16 clientAddr.port ++ be16 targetAddr.port
  | _, _ =>
      proxyV2Sig ++ [0x21, 0x21] ++ be16 36
        ++ copy16 (ipTo16 clientAddr.ip) ++ copy16 (ipTo16 targetAddr.ip)
        ++ be16 clientAddr.port ++ be16 targetAddr.port

end ProxyProtocolV2

/-! ### Prober: `checkNodeHealth` from `main.go` -/

/-- Go `NodeHealth` (the `LastCheck` wall-clock timestamp is not modelled). -/
structure NodeHealth where
  Address : String
  IsHealthy : Bool
  Latency : Nat
deriving DecidableEq, Repr

/-- A probe environment: `none` means `net.DialTimeout` fails (connection
refused or 5s timeout), `some d` means the dial succeeds after `d`
nanoseconds, so `time.Since(start)` measures `d`. -/
abbrev ProbeEnv := String → Option Nat

/-- Embeds `checkNodeHealth`.  The second component counts probe sockets left
open on return: the success branch opens one connection and immediately
executes `conn.Close()`, the failure branch never obtains a connection, so
both branches return `0`.  The function is total: dial failure is recorded in
the `NodeHealth` record, never raised. -/
def checkNodeHealth (env : ProbeEnv) (target : String) : NodeHealth × Nat :=
  match env target with
  | none => ({ Address := target, IsHealthy := false, Latency := 0 }, 0)
  | some d => ({ Address := target, IsHealthy := true, Latency := d }, 0)

/-- Shorthand: the target probed healthy under `env`. -/
def isHealthyT (env : ProbeEnv) (t : String) : Prop :=
  (checkNodeHealth env t).1.IsHealthy = true

instance (env : ProbeEnv) (t : String) : Decidable (isHealthyT env t) := by
  unfold isHealthyT; infer_instance

/-- Shorthand: the latency the probe recorded for the target. -/
def latT (env : ProbeEnv) (t : String) : Nat :=
  (checkNodeHealth env t).1.Latency

/-! ### Selection: `updateBestTarget` from `main.go` -/

/-- The Go zero value of the package-level `var bestTarget string`. -/
def bestTargetInit : String := ""

/-- Embeds the `for _, target := range targets` loop of `updateBestTarget`.
Accumulator `(best, bestTime, healthyCount)`; a healthy probe bumps the count
and replaces the best on `best == "" || health.Latency < bestTime`. -/
def updateLoop (env : ProbeEnv) :
    List String → String × Nat × Nat → String × Nat × Nat
  | [], acc => acc
  | target :: rest, (best, bestTime, healthyCount) =>
    let health := (checkNodeHealth env target).1
    if health.IsHealthy then
      if best = "" ∨ health.Latency < bestTime then
        updateLoop env rest (target, health.Latency, healthyCount + 1)
      else
        updateLoop env rest (best, bestTime, healthyCount + 1)
    else
      updateLoop env rest (best, bestTime, healthyCount)

/-- Embeds `updateBestTarget`: runs the probe loop from `("", 0, 0)` and
publishes `best` when `healthyCount > 0`, else `""` (the "none" selection). -/
def updateBestTarget (env : ProbeEnv) (targets : List String) : String :=
  let r := updateLoop env targets ("", 0, 0)
  if r.2.2 > 0 then r.1 else ""

/-! ### Concrete probe environment for the specified A/B/C latency example -/

/-- Probe environment with healthy targets A:50ms, B:10ms, C:30ms
(latencies in nanoseconds, as Go `time.Duration` counts them). -/
def envABC : ProbeEnv := fun t =>
  if t = "A:1" then some 50000000
  else if t = "B:1" then some 10000000
  else if t = "C:1" then some 30000000
  else none

/-- The configured target list for the A/B/C example, in configuration order. -/
def targetsABC : List String := ["A:1", "B:1", "C:1"]

/-! ### Theorems: probe contract, exact v2 bytes, selection invariant -/

/-- Claim C3: for the IPv4 pair client `1.2.3.4:5000` → target `5.6.7.8:6000`
the PROXY v2 encoder returns exactly the 28-byte sequence: 12-byte signature,
`0x21`, `0x11`, big-endian length 12, client address bytes, target address
bytes, and big-endian client and target ports. -/
theorem proxyV2_ipv4_exact_bytes :
    ProxyProtocolV2.Generate ⟨[1, 2, 3, 4], 5000⟩ ⟨[5, 6, 7, 8], 6000⟩
      = [0x0D, 0x0A, 0x0D, 0x0A, 0x00, 0x0D, 0x0A, 0x51, 0x55, 0x49, 0x54, 0x0A,
         0x21, 0x11, 0x00, 0x0C,
         1, 2, 3, 4, 5, 6, 7, 8,
         0x13, 0x88, 0x17, 0x70] := by
  decide

/-- Claim C6: `checkNodeHealth` never raises (it is a total function into
`NodeHealth` records); on dial failure the record is unhealthy with the zero
sentinel latency, on success it is healthy with latency equal to the elapsed
dial time, and no probe socket is left open (the probe connection is closed
immediately). -/
theorem checkNodeHealth_contract (env : ProbeEnv) (t : String) :
    (checkNodeHealth env t).1.Address = t
    ∧ (checkNodeHealth env t).2 = 0
    ∧ (env t = none →
        (checkNodeHealth env t).1.IsHealthy = false
        ∧ (checkNodeHealth env t).1.Latency = 0)
    ∧ (∀ d, env t = some d →
        (checkNodeHealth env t).1.IsHealthy = true
        ∧ (checkNodeHealth env t).1.Latency = d) := by
  rcases h : env t with _ | d <;> simp [checkNodeHealth, h]

/-- Witness for `checkNodeHealth_contract` at a concrete environment and
target, discharging both implications' hypotheses. -/
theorem checkNodeHealth_contract_witness :
    ((checkNodeHealth envABC "B:1").1.IsHealthy = true
      ∧ (checkNodeHealth envABC "B:1").1.Latency = 10000000)
    ∧ ((checkNodeHealth envABC "Z:1").1.IsHealthy = false
      ∧ (checkNodeHealth envABC "Z:1").1.Latency = 0) :=
  ⟨(checkNodeHealth_contract envABC "B:1").2.2.2 10000000 (by decide),
   (checkNodeHealth_contract envABC "Z:1").2.2.1 (by decide)⟩

/-- Helper: the loop's published best is the starting best or a probed
target. -/
theorem updateLoop_mem (env : ProbeEnv) :
    ∀ (ts : List String) (best : String) (bt c : Nat),
      (updateLoop env ts (best, bt, c)).1 = best
      ∨ (updateLoop env ts (best, bt, c)).1 ∈ ts := by
  intro ts
  induction ts with
  | nil => intro best bt c; left; rfl
  | cons t rest ih =>
    intro best bt c
    by_cases hh : (checkNodeHealth env t).1.IsHealthy
    · by_cases hc : best = "" ∨ (checkNodeHealth env t).1.Latency < bt
      · rcases ih t (checkNodeHealth env t).1.Latency (c + 1) with h | h
        · right; simp [updateLoop, hh, hc, h]
        · right; simp [updateLoop, hh, hc]
          right; exact h
      · rcases ih best bt (c + 1) with h | h
        · left; simp [updateLoop, hh, hc, h]
        · right; simp [updateLoop, hh, hc]
          right; exact h
    · rcases ih best bt c with h | h
      · left; simp [updateLoop, hh, h]
      · right; simp [updateLoop, hh]
        right; exact h

/-- Claim C9: the published selection is always either `""` (the "none"
selection) or one of the configured targets — every monitor update lands in
that set, and the startup value is `""`. -/
theorem selection_in_configured_targets (env : ProbeEnv) (targets : List String) :
    (updateBestTarget env targets = ""
      ∨ updateBestTarget env targets ∈ targets)
    ∧ bestTargetInit = "" := by
  refine ⟨?_, rfl⟩
  unfold updateBestTarget
  by_cases hc : (updateLoop env targets ("", 0, 0)).2.2 > 0
  · simp only [hc, if_pos]
    exact updateLoop_mem env targets "" 0 0
  · rw [if_neg hc]
    exact Or.inl rfl

/-- Helper: the loop's healthy count grows by exactly the number of healthy
probes. -/
theorem updateLoop_count (env : ProbeEnv) :
    ∀ (ts : List String) (best : String) (bt c : Nat),
      (updateLoop env ts (best, bt, c)).2.2
        = c + ts.countP (fun t => (checkNodeHealth env t).1.IsHealthy) := by
  intro ts
  induction ts with
  | nil => intro best bt c; simp [updateLoop]
  | cons t rest ih =>
    intro best bt c
    by_cases hh : (checkNodeHealth env t).1.IsHealthy
    · by_cases hc : best = "" ∨ (checkNodeHealth env t).1.Latency < bt
      · simp [updateLoop, hh, hc, ih, List.countP_cons]
        omega
      · simp [updateLoop, hh, hc, ih, List.countP_cons]
        omega
    · simp [updateLoop, hh, ih, List.countP_cons]

/-- Helper: behaviour of the probe loop launched from a non-empty current
best `best` whose latency is `bt`.  Either `best` survives and every healthy
probed target has latency at least `bt`, or the result is a healthy probed
target that strictly beats `bt`, beats every healthy target before its
position, and is beaten by no healthy target after it. -/
theorem updateLoop_run (env : ProbeEnv) :
    ∀ (ts : List String) (best : String) (bt c : Nat), "" ∉ ts → best ≠ "" →
      ((updateLoop env ts (best, bt, c)).1 = best
        ∧ (updateLoop env ts (best, bt, c)).2.1 = bt
        ∧ ∀ u ∈ ts, isHealthyT env u → bt ≤ latT env u)
      ∨ (∃ pre s suf, ts = pre ++ s :: suf
          ∧ (updateLoop env ts (best, bt, c)).1 = s
          ∧ isHealthyT env s
          ∧ (updateLoop env ts (best, bt, c)).2.1 = latT env s
          ∧ latT env s < bt
          ∧ (∀ u ∈ pre, isHealthyT env u → latT env s < latT env u)
          ∧ (∀ u ∈ suf, isHealthyT env u → latT env s ≤ latT env u)) := by
  intro ts
  induction ts with
  | nil =>
    intro best bt c _ _
    exact Or.inl ⟨rfl, rfl, by simp⟩
  | cons t rest ih =>
    intro best bt c hmem hb
    have ht : t ≠ "" := fun h => hmem (by simp [h])
    have hrest : "" ∉ rest := fun h => hmem (List.mem_cons_of_mem _ h)
    by_cases hh : (checkNodeHealth env t).1.IsHealthy
    · by_cases hlt : (checkNodeHealth env t).1.Latency < bt
      · have heq : updateLoop env (t :: rest) (best, bt, c)
            = updateLoop env rest (t, (checkNodeHealth env t).1.Latency, c + 1) := by
          simp [updateLoop, hh, hlt]
        rw [heq]
        rcases ih t (checkNodeHealth env t).1.Latency (c + 1) hrest ht with
          ⟨h1, h2, h3⟩ | ⟨pre, s, suf, hsplit, h1, h2, h3, h4, h5, h6⟩
        · right
          exact ⟨[], t, rest, by simp, h1, hh, h2, hlt, by simp, h3⟩
        · right
          refine ⟨t :: pre, s, suf, by simp [hsplit], h1, h2, h3,
            lt_trans h4 hlt, ?_, h6⟩
          intro u hu hhu
          rcases List.mem_cons.1 hu with rfl | hu2
          · exact h4
          · exact h5 u hu2 hhu
      · have heq : updateLoop env (t :: rest) (best, bt, c)
            = updateLoop env rest (best, bt, c + 1) := by
          simp [updateLoop, hh, hb, hlt]
        rw [heq]
        rcases ih best bt (c + 1) hrest hb with
          ⟨h1, h2, h3⟩ | ⟨pre, s, suf, hsplit, h1, h2, h3, h4, h5, h6⟩
        · left
          refine ⟨h1, h2, ?_⟩
          intro u hu hhu
          rcases List.mem_cons.1 hu with rfl | hu2
          · exact Nat.le_of_not_lt hlt
          · exact h3 u hu2 hhu
        · right
          refine ⟨t :: pre, s, suf, by simp [hsplit], h1, h2, h3, h4, ?_, h6⟩
          intro u hu hhu
          rcases List.mem_cons.1 hu with rfl | hu2
          · exact lt_of_lt_of_le h4 (Nat.le_of_not_lt hlt)
          · exact h5 u hu2 hhu
    · have heq : updateLoop env (t :: rest) (best, bt, c)
          = updateLoop env rest (best, bt, c) := by
        simp [updateLoop, hh]
      rw [heq]
      rcases ih best bt c hrest hb with
        ⟨h1, h2, h3⟩ | ⟨pre, s, suf, hsplit, h1, h2, h3, h4, h5, h6⟩
      · left
        refine ⟨h1, h2, ?_⟩
        intro u hu hhu
        rcases List.mem_cons.1 hu with rfl | hu2
        · exact absurd hhu hh
        · exact h3 u hu2 hhu
      · right
        refine ⟨t :: pre, s, suf, by simp [hsplit], h1, h2, h3, h4, ?_, h6⟩
        intro u hu hhu
        rcases List.mem_cons.1 hu with rfl | hu2
        · exact absurd hhu hh
        · exact h5 u hu2 hhu

/-- Helper: behaviour of the probe loop from the initial `best = ""`
accumulator.  Either no probed target is healthy and the best stays `""`, or
the best is a healthy target of minimum latency, earliest on ties. -/
theorem updateLoop_run_from_empty (env : ProbeEnv) :
    ∀ (ts : List String) (bt c : Nat), "" ∉ ts →
      ((updateLoop env ts ("", bt, c)).1 = "" ∧ ∀ u ∈ ts, ¬ isHealthyT env u)
      ∨ (∃ pre s suf, ts = pre ++ s :: suf
          ∧ (updateLoop env ts ("", bt, c)).1 = s
          ∧ isHealthyT env s
          ∧ (updateLoop env ts ("", bt, c)).2.1 = latT env s
          ∧ (∀ u ∈ pre, isHealthyT env u → latT env s < latT env u)
          ∧ (∀ u ∈ suf, isHealthyT env u → latT env s ≤ latT env u)) := by
  intro ts
  induction ts with
  | nil => intro bt c _; exact Or.inl ⟨rfl, by simp⟩
  | cons t rest ih =>
    intro bt c hmem
    have ht : t ≠ "" := fun h => hmem (by simp [h])
    have hrest : "" ∉ rest := fun h => hmem (List.mem_cons_of_mem _ h)
    by_cases hh : (checkNodeHealth env t).1.IsHealthy
    · have heq : updateLoop env (t :: rest) ("", bt, c)
          = updateLoop env rest (t, (checkNodeHealth env t).1.Latency, c + 1) := by
        simp [updateLoop, hh]
      rw [heq]
      rcases updateLoop_run env rest t (checkNodeHealth env t).1.Latency (c + 1)
          hrest ht with
        ⟨h1, h2, h3⟩ | ⟨pre, s, suf, hsplit, h1, h2, h3, h4, h5, h6⟩
      · right
        exact ⟨[], t, rest, by simp, h1, hh, h2, by simp, h3⟩
      · right
        refine ⟨t :: pre, s, suf, by simp [hsplit], h1, h2, h3, ?_, h6⟩
        intro u hu hhu
        rcases List.mem_cons.1 hu with rfl | hu2
        · exact h4
        · exact h5 u hu2 hhu
    · have heq : updateLoop env (t :: rest) ("", bt, c)
          = updateLoop env rest ("", bt, c) := by
        simp [updateLoop, hh]
      rw [heq]
      rcases ih bt c hrest with
        ⟨h1, h2⟩ | ⟨pre, s, suf, hsplit, h1, h2, h3, h5, h6⟩
      · left
        refine ⟨h1, ?_⟩
        intro u hu hhu
        rcases List.mem_cons.1 hu with rfl | hu2
        · exact hh hhu
        · exact h2 u hu2 hhu
      · right
        refine ⟨t :: pre, s, suf, by simp [hsplit], h1, h2, h3, ?_, h6⟩
        intro u hu hhu
        rcases List.mem_cons.1 hu with rfl | hu2
        · exact absurd hhu hh
        · exact h5 u hu2 hhu

/-- Claim C1: after a probe round with at least one healthy target, the
published selection is the healthy target with minimum measured latency,
ties broken by the earliest position in configuration order (every healthy
target strictly before the selection in the list has strictly larger
latency; every healthy target after it has latency at least as large); in
particular, for healthy targets with latencies A:50ms, B:10ms, C:30ms the
selection is B. -/
theorem updateBestTarget_min_latency (env : ProbeEnv) (targets : List String)
    (hne : "" ∉ targets) (hex : ∃ t ∈ targets, isHealthyT env t) :
    (∃ pre s suf, targets = pre ++ s :: suf
      ∧ updateBestTarget env targets = s
      ∧ isHealthyT env s
      ∧ (∀ u ∈ pre, isHealthyT env u → latT env s < latT env u)
      ∧ (∀ u ∈ suf, isHealthyT env u → latT env s ≤ latT env u))
    ∧ updateBestTarget envABC targetsABC = "B:1" := by
  constructor
  · have hcount : (updateLoop env targets ("", 0, 0)).2.2 > 0 := by
      rw [updateLoop_count env targets "" 0 0]
      rcases hex with ⟨t0, hm, hh⟩
      have hpos : 0 < targets.countP (fun t => (checkNodeHealth env t).1.IsHealthy) :=
        List.countP_pos_iff.2 ⟨t0, hm, hh⟩
      omega
    have hsel : updateBestTarget env targets = (updateLoop env targets ("", 0, 0)).1 := by
      unfold updateBestTarget
      rw [if_pos hcount]
    rcases updateLoop_run_from_empty env targets 0 0 hne with
      ⟨h1, h2⟩ | ⟨pre, s, suf, hsplit, h1, h2, h3, h5, h6⟩
    · rcases hex with ⟨t0, hm, hh⟩
      exact absurd hh (h2 t0 hm)
    · exact ⟨pre, s, suf, hsplit, hsel.trans h1, h2, h5, h6⟩
  · decide

/-- Witness for `updateBestTarget_min_latency` at the concrete A/B/C
environment. -/
theorem updateBestTarget_min_latency_witness :
    (("" ∉ targetsABC) ∧ ∃ t ∈ targetsABC, isHealthyT envABC t)
    ∧ (∃ pre s suf, targetsABC = pre ++ s :: suf
        ∧ updateBestTarget envABC targetsABC = s
        ∧ isHealthyT envABC s
        ∧ (∀ u ∈ pre, isHealthyT envABC u → latT envABC s < latT envABC u)
        ∧ (∀ u ∈ suf, isHealthyT envABC u → latT envABC s ≤ latT envABC u)) :=
  ⟨⟨by decide, by decide⟩,
   (updateBestTarget_min_latency envABC targetsABC (by decide) (by decide)).1⟩

/-! ### Health map and monitor cadence: `nodeHealths`, `allNodesFailed`,
the monitor goroutine of `startTCPServer`, and `loadConfig` defaulting -/

/-- Association-list update modelling `nodeHealths[target] = health`. -/
def setHealth : List (String × NodeHealth) → String → NodeHealth → List (String × NodeHealth)
  | [], t, h => [(t, h)]
  | (k, v) :: rest, t, h =>
    if k = t then (t, h) :: rest else (k, v) :: setHealth rest t h

/-- One probe round's effect on the global `nodeHealths` map: every probed
target's record is overwritten in place by `checkNodeHealth`'s map update. -/
def runRound (env : ProbeEnv) (targets : List String)
    (m : List (String × NodeHealth)) : List (String × NodeHealth) :=
  targets.foldl (fun acc t => setHealth acc t (checkNodeHealth env t).1) m

/-- Embeds `allNodesFailed`: true when the map is nil/empty, or when no
record in it is healthy. -/
def allNodesFailed (m : List (String × NodeHealth)) : Bool :=
  if m.isEmpty then true
  else m.all fun kv => !kv.2.IsHealthy

/-- Embeds the interval choice of the monitor goroutine in `startTCPServer`:
the failure interval when `allNodesFailed()`, else the update interval. -/
def nextInterval (m : List (String × NodeHealth))
    (updateInterval failureInterval : Int) : Int :=
  if allNodesFailed m then failureInterval else updateInterval

/-- Embeds the `failureInterval` defaulting in `loadConfig`: a configured
value ≤ 0 is replaced by 5 seconds. -/
def loadConfigFailureInterval (configured : Int) : Int :=
  if configured ≤ 0 then 5 else configured

/-- Helper: membership after a `setHealth` update. -/
theorem setHealth_mem (kv : String × NodeHealth) :
    ∀ (m : List (String × NodeHealth)) (t : String) (h : NodeHealth),
      kv ∈ setHealth m t h → kv ∈ m ∨ kv = (t, h) := by
  intro m
  induction m with
  | nil =>
    intro t h hkv
    simp [setHealth] at hkv
    exact Or.inr hkv
  | cons e rest ih =>
    intro t h hkv
    by_cases hk : e.1 = t
    · have : setHealth (e :: rest) t h = (t, h) :: rest := by
        cases e; simp_all [setHealth]
      rw [this] at hkv
      rcases List.mem_cons.1 hkv with rfl | h2
      · exact Or.inr rfl
      · exact Or.inl (List.mem_cons_of_mem _ h2)
    · have : setHealth (e :: rest) t h = e :: setHealth rest t h := by
        cases e; simp_all [setHealth]
      rw [this] at hkv
      rcases List.mem_cons.1 hkv with rfl | h2
      · exact Or.inl (List.mem_cons_self _ _)
      · rcases ih t h h2 with h3 | h3
        · exact Or.inl (List.mem_cons_of_mem _ h3)
        · exact Or.inr h3

/-- Helper: the updated binding is present after `setHealth`. -/
theorem setHealth_self (t : String) (h : NodeHealth) :
    ∀ m : List (String × NodeHealth), (t, h) ∈ setHealth m t h := by
  intro m
  induction m with
  | nil => simp [setHealth]
  | cons e rest ih =>
    by_cases hk : e.1 = t
    · have : setHealth (e :: rest) t h = (t, h) :: rest := by
        cases e; simp_all [setHealth]
      rw [this]
      exact List.mem_cons_self _ _
    · have : setHealth (e :: rest) t h = e :: setHealth rest t h := by
        cases e; simp_all [setHealth]
      rw [this]
      exact List.mem_cons_of_mem _ ih

/-- Helper: `setHealth` for a different key keeps a binding. -/
theorem setHealth_other (k t : String) (v h : NodeHealth) (hk : k ≠ t) :
    ∀ m : List (String × NodeHealth), (k, v) ∈ m → (k, v) ∈ setHealth m t h := by
  intro m
  induction m with
  | nil => intro hm; simp at hm
  | cons e rest ih =>
    intro hm
    by_cases he : e.1 = t
    · have : setHealth (e :: rest) t h = (t, h) :: rest := by
        cases e; simp_all [setHealth]
      rw [this]
      rcases List.mem_cons.1 hm with rfl | h2
      · exact absurd he hk
      · exact List.mem_cons_of_mem _ h2
    · have : setHealth (e :: rest) t h = e :: setHealth rest t h := by
        cases e; simp_all [setHealth]
      rw [this]
      rcases List.mem_cons.1 hm with rfl | h2
      · exact List.mem_cons_self _ _
      · exact List.mem_cons_of_mem _ (ih h2)

/-- Helper: a correct binding survives a whole probe round. -/
theorem runRound_keeps (env : ProbeEnv) (t : String) :
    ∀ (ts : List String) (m : List (String × NodeHealth)),
      (t, (checkNodeHealth env t).1) ∈ m
      → (t, (checkNodeHealth env t).1) ∈ runRound env ts m := by
  intro ts
  induction ts with
  | nil => intro m hm; exact hm
  | cons u rest ih =>
    intro m hm
    show (t, (checkNodeHealth env t).1)
      ∈ runRound env rest (setHealth m u (checkNodeHealth env u).1)
    by_cases hu : u = t
    · subst hu
      exact ih _ (setHealth_self u _ m)
    · exact ih _ (setHealth_other t u _ _ (fun h => hu h.symm) m hm)

/-- Helper: after a probe round, every probed target has its freshly probed
record in the map. -/
theorem runRound_hits (env : ProbeEnv) (t : String) :
    ∀ (ts : List String) (m : List (String × NodeHealth)), t ∈ ts
      → (t, (checkNodeHealth env t).1) ∈ runRound env ts m := by
  intro ts
  induction ts with
  | nil => intro m hm; simp at hm
  | cons u rest ih =>
    intro m hm
    show (t, (checkNodeHealth env t).1)
      ∈ runRound env rest (setHealth m u (checkNodeHealth env u).1)
    rcases List.mem_cons.1 hm with rfl | h2
    · exact runRound_keeps env t rest _ (setHealth_self t _ m)
    · exact ih _ h2

/-- Helper: every entry of a from-startup probe round is a probed target's
fresh record. -/
theorem runRound_mem (env : ProbeEnv) :
    ∀ (ts : List String) (m : List (String × NodeHealth)) (kv : String × NodeHealth),
      kv ∈ runRound env ts m
      → kv ∈ m ∨ (kv.1 ∈ ts ∧ kv.2 = (checkNodeHealth env kv.1).1) := by
  intro ts
  induction ts with
  | nil => intro m kv hkv; exact Or.inl hkv
  | cons u rest ih =>
    intro m kv hkv
    have hkv2 : kv ∈ runRound env rest (setHealth m u (checkNodeHealth env u).1) := hkv
    rcases ih _ kv hkv2 with h | ⟨h1, h2⟩
    · rcases setHealth_mem kv m u _ h with h3 | h3
      · exact Or.inl h3
      · subst h3
        exact Or.inr ⟨List.mem_cons_self _ _, rfl⟩
    · exact Or.inr ⟨List.mem_cons_of_mem _ h1, h2⟩

/-- Claim C7: the monitor loop waits the failure interval before the next
round exactly when the previous round found every target unhealthy (and the
normal update interval otherwise); `loadConfig` replaces a configured
failure interval ≤ 0 by the 5-second default. -/
theorem monitor_interval_iff (env : ProbeEnv) (targets : List String)
    (ui fi cfi : Int) :
    (nextInterval (runRound env targets []) ui fi
      = if ∀ t ∈ targets, (checkNodeHealth env t).1.IsHealthy = false then fi else ui)
    ∧ (cfi ≤ 0 → loadConfigFailureInterval cfi = 5) := by
  have hiff : allNodesFailed (runRound env targets []) = true
      ↔ ∀ t ∈ targets, (checkNodeHealth env t).1.IsHealthy = false := by
    constructor
    · intro hall t ht
      have hmem := runRound_hits env t targets [] ht
      unfold allNodesFailed at hall
      by_cases he : (runRound env targets []).isEmpty
      · rw [List.isEmpty_iff] at he
        rw [he] at hmem
        simp at hmem
      · rw [if_neg he] at hall
        have := List.all_eq_true.1 hall _ hmem
        simpa using this
    · intro hforall
      unfold allNodesFailed
      by_cases he : (runRound env targets []).isEmpty
      · rw [if_pos he]
      · rw [if_neg he]
        apply List.all_eq_true.2
        intro kv hkv
        rcases runRound_mem env targets [] kv hkv with h | ⟨h1, h2⟩
        · simp at h
        · simp [h2, hforall kv.1 h1]
  constructor
  · unfold nextInterval
    by_cases hall : ∀ t ∈ targets, (checkNodeHealth env t).1.IsHealthy = false
    · rw [if_pos (hiff.2 hall), if_pos hall]
    · rw [if_neg (fun h => hall (hiff.1 h)), if_neg hall]
  · intro h
    unfold loadConfigFailureInterval
    rw [if_pos h]

/-- Witness for `monitor_interval_iff`: a single unreachable target and a
non-positive configured failure interval. -/
theorem monitor_interval_iff_witness :
    (nextInterval (runRound (fun _ => none) ["A:1"] []) 60 5
      = if ∀ t ∈ ["A:1"], (checkNodeHealth (fun _ => none) t).1.IsHealthy = false
        then (5 : Int) else 60)
    ∧ loadConfigFailureInterval (-3) = 5 :=
  ⟨(monitor_interval_iff (fun _ => none) ["A:1"] 60 5 (-3)).1,
   (monitor_interval_iff (fun _ => none) ["A:1"] 60 5 (-3)).2 (by decide)⟩

/-! ### PROXY v2 layout selection -/

/-- Helper: the copied address block is always exactly 16 bytes. -/
theorem copy16_length (src : Option IPBytes) : (copy16 src).length = 16 := by
  cases src with
  | none => simp [copy16]
  | some l =>
    simp [copy16]
    omega

/-- Claim C4: the PROXY v2 encoder emits the IPv6 layout (family byte
`0x21`, big-endian length 36, then a 16-byte client block and a 16-byte
target block and the two big-endian ports) if and only if at least one
endpoint address is not expressible as IPv4 (`To4` is nil); otherwise it
emits the IPv4 layout (family byte `0x11`, length 12, 28 bytes total). -/
theorem proxyV2_family_iff (c t : TCPAddr) :
    ((ProxyProtocolV2.Generate c t
        = proxyV2Sig ++ [0x21, 0x21, 0x00, 0x24]
          ++ copy16 (ipTo16 c.ip) ++ copy16 (ipTo16 t.ip)
          ++ be16 c.port ++ be16 t.port)
      ↔ (ipTo4 c.ip = none ∨ ipTo4 t.ip = none))
    ∧ (copy16 (ipTo16 c.ip)).length = 16
    ∧ (copy16 (ipTo16 t.ip)).length = 16
    ∧ ((ipTo4 c.ip = none ∨ ipTo4 t.ip = none)
        → (ProxyProtocolV2.Generate c t).length = 52)
    ∧ (∀ c4 t4, ipTo4 c.ip = some c4 → ipTo4 t.ip = some t4 →
        ProxyProtocolV2.Generate c t
          = proxyV2Sig ++ [0x21, 0x11, 0x00, 0x0C]
            ++ be32 (bytesToNat32 c4) ++ be32 (bytesToNat32 t4)
            ++ be16 c.port ++ be16 t.port
        ∧ (ProxyProtocolV2.Generate c t).length = 28) := by
  have hl6 : (proxyV2Sig ++ [0x21, 0x21, 0x00, 0x24]
      ++ copy16 (ipTo16 c.ip) ++ copy16 (ipTo16 t.ip)
      ++ be16 c.port ++ be16 t.port).length = 52 := by
    simp [proxyV2Sig, be16, copy16_length]
  by_cases h6 : ipTo4 c.ip = none ∨ ipTo4 t.ip = none
  · have hgen : ProxyProtocolV2.Generate c t
        = proxyV2Sig ++ [0x21, 0x21, 0x00, 0x24]
          ++ copy16 (ipTo16 c.ip) ++ copy16 (ipTo16 t.ip)
          ++ be16 c.port ++ be16 t.port := by
      rcases h6 with h | h
      · simp [ProxyProtocolV2.Generate, h, be16]
      · rcases h1 : ipTo4 c.ip with _ | c4 <;>
          simp [ProxyProtocolV2.Generate, h1, h, be16]
    refine ⟨⟨fun _ => h6, fun _ => hgen⟩, copy16_length _, copy16_length _,
      fun _ => by rw [hgen]; exact hl6, fun c4 t4 hc ht => ?_⟩
    rcases h6 with h | h
    · rw [hc] at h
      exact absurd h (by simp)
    · rw [ht] at h
      exact absurd h (by simp)
  · push_neg at h6
    obtain ⟨hc0, ht0⟩ := h6
    obtain ⟨c4, h1⟩ := Option.ne_none_iff_exists'.1 hc0
    obtain ⟨t4, h2⟩ := Option.ne_none_iff_exists'.1 ht0
    have hgen : ProxyProtocolV2.Generate c t
        = proxyV2Sig ++ [0x21, 0x11, 0x00, 0x0C]
          ++ be32 (bytesToNat32 c4) ++ be32 (bytesToNat32 t4)
          ++ be16 c.port ++ be16 t.port := by
      simp [ProxyProtocolV2.Generate, h1, h2, be16]
    have hl4 : (ProxyProtocolV2.Generate c t).length = 28 := by
      rw [hgen]
      simp [proxyV2Sig, be16, be32]
    refine ⟨⟨fun heq => ?_, fun h => absurd h (by rw [h1, h2]; simp)⟩,
      copy16_length _, copy16_length _,
      fun h => absurd h (by rw [h1, h2]; simp),
      fun c4s t4s hcs hts => ?_⟩
    · have h28 := hl4
      rw [heq, hl6] at h28
      exact absurd h28 (by decide)
    · rw [h1] at hcs
      rw [h2] at hts
      cases hcs
      cases hts
      exact ⟨hgen, hl4⟩

/-- A concrete IPv6 endpoint pair used as a witness input. -/
def cV6 : TCPAddr := ⟨[0x20, 0x01, 0x0d, 0xb8, 0, 0, 0, 0, 0, 0, 0, 0, 0, 0, 0, 1], 5000⟩

/-- The second concrete IPv6 endpoint of the witness pair. -/
def tV6 : TCPAddr := ⟨[0xfe, 0x80, 0, 0, 0, 0, 0, 0, 0, 0, 0, 0, 0, 0, 0, 2], 6000⟩

/-- Witness for `proxyV2_family_iff`: a concrete IPv6 pair takes the IPv6
layout. -/
theorem proxyV2_family_iff_witness :
    ProxyProtocolV2.Generate cV6 tV6
      = proxyV2Sig ++ [0x21, 0x21, 0x00, 0x24]
        ++ copy16 (ipTo16 cV6.ip) ++ copy16 (ipTo16 tV6.ip)
        ++ be16 cV6.port ++ be16 tV6.port :=
  (proxyV2_family_iff cV6 tV6).1.mpr (Or.inl (by decide))

/-! ### Go `net.IP.String` and the PROXY v1 line -/

/-- Lowercase hex of a 16-bit group without leading zeros (Go `appendHex`;
`0` prints as `"0"`). -/
def groupHex (n : Nat) : String := String.mk (Nat.toDigits 16 n)

/-- Single-pass scan collecting the maximal runs of zero groups as
(start index, length) pairs; the third argument is the run currently being
extended. -/
def zeroRunsAux : List Nat → Nat → Option (Nat × Nat) → List (Nat × Nat)
  | [], _, none => []
  | [], _, some r => [r]
  | 0 :: rest, i, none => zeroRunsAux rest (i + 1) (some (i, 1))
  | 0 :: rest, i, some (s, l) => zeroRunsAux rest (i + 1) (some (s, l + 1))
  | _ :: rest, i, none => zeroRunsAux rest (i + 1) none
  | _ :: rest, i, some r => r :: zeroRunsAux rest (i + 1) none

/-- All maximal runs of zero groups in scan order — the zero-run scan of Go
`net.IP.String`. -/
def zeroRuns (gs : List Nat) (i : Nat) : List (Nat × Nat) :=
  zeroRunsAux gs i none

/-- Go's zero-run choice: the leftmost longest run; runs shorter than two
groups are never compressed (`::` must not shorten a single group). -/
def pickRun (runs : List (Nat × Nat)) : Option (Nat × Nat) :=
  let m := runs.foldl (fun acc r =>
    match acc with
    | none => some r
    | some b => if r.2 > b.2 then some r else acc) none
  match m with
  | none => none
  | some r => if r.2 ≥ 2 then some r else none

/-- Joins group strings with `:` separators. -/
def joinColon : List String → String
  | [] => ""
  | [s] => s
  | s :: rest => s ++ ":" ++ joinColon rest

/-- Pairs an IPv6 address's bytes into 16-bit groups. -/
def toGroups : List Nat → List Nat
  | a :: b :: rest => (a * 256 + b) :: toGroups rest
  | _ => []

/-- Go IPv6 textual form: hex groups with the chosen zero run compressed
to `::`. -/
def v6String (gs : List Nat) : String :=
  match pickRun (zeroRuns gs 0) with
  | none => joinColon (gs.map groupHex)
  | some r =>
      joinColon ((gs.take r.1).map groupHex) ++ "::"
        ++ joinColon ((gs.drop (r.1 + r.2)).map groupHex)

/-- Two-digit lowercase hex of one byte (Go `hexString` building block). -/
def byteHex (n : Nat) : String :=
  String.mk [Nat.digitChar (n / 16 % 16), Nat.digitChar (n % 16)]

/-- Embeds Go `net.IP.String`: `<nil>` for an empty slice, dotted decimal
for addresses expressible as IPv4, `?` plus hex for invalid lengths, and
the compressed colon-hex form for 16-byte IPv6 addresses. -/
def ipString (ip : IPBytes) : String :=
  if ip.length = 0 then "<nil>"
  else match ipTo4 ip with
  | some p4 =>
      Nat.repr (p4.getD 0 0) ++ "." ++ Nat.repr (p4.getD 1 0) ++ "."
        ++ Nat.repr (p4.getD 2 0) ++ "." ++ Nat.repr (p4.getD 3 0)
  | none =>
      if ip.length ≠ 16 then "?" ++ String.join (ip.map byteHex)
      else v6String (toGroups ip)

namespace ProxyProtocolV1

/-- Embeds `ProxyProtocolV1.Generate`: the
`fmt.Sprintf("PROXY TCP%d %s %s %d %d\r\n", 4, ...)` call over the client
and target remote addresses.  The protocol number argument is the constant
`4`; the source comments that IPv6 would need an extension. -/
def Generate (clientAddr targetAddr : TCPAddr) : String :=
  "PROXY TCP" ++ Nat.repr 4 ++ " " ++ ipString clientAddr.ip ++ " "
    ++ ipString targetAddr.ip ++ " " ++ Nat.repr clientAddr.port ++ " "
    ++ Nat.repr targetAddr.port ++ "\r\n"

end ProxyProtocolV1

/-- Claim C5 (amended): the PROXY v1 encoder returns the ASCII line
`PROXY TCP4 <client-ip> <target-ip> <client-port> <target-port>\r\n` for
every address pair — the protocol token is the constant `TCP4` regardless
of address family; `TCP6` is never produced. -/
theorem proxyV1_always_tcp4 (c t : TCPAddr) :
    ProxyProtocolV1.Generate c t
      = "PROXY TCP4 " ++ ipString c.ip ++ " " ++ ipString t.ip ++ " "
        ++ Nat.repr c.port ++ " " ++ Nat.repr t.port ++ "\r\n" := rfl

/-- A concrete IPv6 client endpoint `[2001:db8:1:2:3:4:5:6]:80`. -/
def c5client : TCPAddr :=
  ⟨[0x20, 0x01, 0x0d, 0xb8, 0, 1, 0, 2, 0, 3, 0, 4, 0, 5, 0, 6], 80⟩

/-- A concrete IPv6 target endpoint `[2001:db8:1:2:3:4:5:7]:443`. -/
def c5target : TCPAddr :=
  ⟨[0x20, 0x01, 0x0d, 0xb8, 0, 1, 0, 2, 0, 3, 0, 4, 0, 5, 0, 7], 443⟩

/-- Counterexample to claim C5 as stated: for a genuine IPv6 pair the
encoder still emits the `TCP4` token, not `TCP6`. -/
theorem proxyV1_tcp6_counterexample :
    (ipTo4 c5client.ip = none ∧ ipTo4 c5target.ip = none)
    ∧ ProxyProtocolV1.Generate c5client c5target
        = "PROXY TCP4 2001:db8:1:2:3:4:5:6 2001:db8:1:2:3:4:5:7 80 443\r\n"
    ∧ (ProxyProtocolV1.Generate c5client c5target).take 10 ≠ "PROXY TCP6" := by
  decide

/-! ### Connections, the network world, the per-target pool, and the relay -/

/-- A TCP connection as the relay sees it: an identity and the remote
address (`RemoteAddr`). -/
structure Conn where
  id : Nat
  remote : TCPAddr
deriving DecidableEq, Repr

/-- Explicit network state threaded through the connection-handling code:
a clock, a fresh-connection counter, the locally closed connections,
per-connection absolute deadlines, and the log of `net.DialTimeout` calls
(address and timeout in seconds). -/
structure World where
  time : Nat
  nextId : Nat
  closedIds : List Nat
  deadlines : List (Nat × Nat)
  dialLog : List (String × Nat)
deriving DecidableEq, Repr

/-- Association-list update for per-connection deadlines. -/
def setAssoc : List (Nat × Nat) → Nat → Nat → List (Nat × Nat)
  | [], k, v => [(k, v)]
  | (k0, v0) :: rest, k, v =>
    if k0 = k then (k, v) :: rest else (k0, v0) :: setAssoc rest k v

/-- Go `conn.SetDeadline(d)`: returns a non-nil error exactly when the
connection is already closed; on success it records the new deadline.
Expiry of a previously set deadline never makes `SetDeadline` itself
fail. -/
def connSetDeadline (w : World) (cid d : Nat) : Option World :=
  if cid ∈ w.closedIds then none
  else some { w with deadlines := setAssoc w.deadlines cid d }

/-- Go `conn.Close()`. -/
def connClose (w : World) (cid : Nat) : World :=
  if cid ∈ w.closedIds then w else { w with closedIds := cid :: w.closedIds }

/-- The dial environment: for a nonempty address, `none` means the dial
fails and `some a` means a connection is established whose remote address
is `a`. -/
abbrev DialEnv := String → Option TCPAddr

/-- Go `net.DialTimeout("tcp", addr, timeout)`: every attempt is logged; an
empty address fails immediately (Go's `missing address` error, no network
traffic); otherwise the environment decides, and success allocates a fresh
connection. -/
def netDialTimeout (env : DialEnv) (w : World) (addr : String) (timeoutSec : Nat) :
    World × Option Conn :=
  let w1 := { w with dialLog := w.dialLog ++ [(addr, timeoutSec)] }
  if addr = "" then (w1, none)
  else
    match env addr with
    | none => (w1, none)
    | some remote =>
        ({ w1 with nextId := w1.nextId + 1 }, some { id := w1.nextId, remote := remote })

/-- Embeds `TargetPool`: the target address and the idle connections of the
underlying `sync.Pool`, modelled as a LIFO list that is never spontaneously
evicted. -/
structure TargetPool where
  addr : String
  idle : List Conn
deriving DecidableEq, Repr

/-- Embeds `NewTargetPool`: a pool starts with no idle connection; its `New`
function dials the target with the 5-second timeout when `Get` finds the
pool empty. -/
def NewTargetPool (addr : String) : TargetPool := { addr := addr, idle := [] }

namespace TargetPool

/-- Models `p.pool.Get()` of `sync.Pool`: pop the most recently stored idle
connection, or invoke `New` (one dial, yielding `nil` on failure). -/
def poolGet (env : DialEnv) (w : World) (p : TargetPool) :
    World × TargetPool × Option Conn :=
  match p.idle with
  | c :: rest => (w, { p with idle := rest }, some c)
  | [] =>
      let r := netDialTimeout env w p.addr 5
      (r.1, p, r.2)

/-- Embeds `TargetPool.Get`: take from the `sync.Pool` (dialing via `New`
when empty); a nil result dials once more directly; a non-nil connection is
liveness-checked with `SetDeadline(now+1s)` — on error it is closed and a
fresh connection is dialed instead. -/
def Get (env : DialEnv) (w : World) (p : TargetPool) :
    World × TargetPool × Option Conn :=
  let r := poolGet env w p
  match r.2.2 with
  | none =>
      let d := netDialTimeout env r.1 p.addr 5
      (d.1, r.2.1, d.2)
  | some c =>
      match connSetDeadline r.1 c.id (r.1.time + 1) with
      | none =>
          let w2 := connClose r.1 c.id
          let d := netDialTimeout env w2 p.addr 5
          (d.1, r.2.1, d.2)
      | some w2 => (w2, r.2.1, some c)

/-- Embeds `TargetPool.Put`: a nil connection is ignored; otherwise
`SetDeadline(now+1s)` is the liveness check — on success the connection
joins the idle set, on error it is closed. -/
def Put (w : World) (p : TargetPool) (conn : Option Conn) : World × TargetPool :=
  match conn with
  | none => (w, p)
  | some c =>
      match connSetDeadline w c.id (w.time + 1) with
      | some w2 => (w2, { p with idle := c :: p.idle })
      | none => (connClose w c.id, p)

end TargetPool

/-- Association lookup in the pool registry `targetPools`. -/
def lookupPool : List (String × TargetPool) → String → Option TargetPool
  | [], _ => none
  | e :: rest, t => if e.1 = t then some e.2 else lookupPool rest t

/-- Association-list update for the pool registry. -/
def setPool : List (String × TargetPool) → String → TargetPool → List (String × TargetPool)
  | [], t, p => [(t, p)]
  | e :: rest, t, p => if e.1 = t then (t, p) :: rest else e :: setPool rest t p

/-- Embeds `getOrCreatePool`: under the registry mutex, return the cached
pool for the target or create and register a new one. -/
def getOrCreatePool (registry : List (String × TargetPool)) (target : String) :
    List (String × TargetPool) × TargetPool :=
  match lookupPool registry target with
  | some p => (registry, p)
  | none =>
      let p := NewTargetPool target
      (registry ++ [(target, p)], p)

/-- The PROXY protocol variant chosen at startup; `none` models the nil
interface value (headers disabled). -/
inductive ProxyProtocolKind
  | v1
  | v2
deriving DecidableEq, Repr

/-- Go `strings.ToLower` restricted to the ASCII strings the configuration
switch compares against. -/
def asciiLower (s : String) : String := String.mk (s.data.map Char.toLower)

/-- Embeds `getProxyProtocol`: `switch strings.ToLower(version)` — `"v1"`
and `"v2"` select an encoder, every other value yields the nil encoder. -/
def getProxyProtocol (version : String) : Option ProxyProtocolKind :=
  if asciiLower version = "v1" then some ProxyProtocolKind.v1
  else if asciiLower version = "v2" then some ProxyProtocolKind.v2
  else none

/-- The header bytes an encoder writes: v1 the bytes of its ASCII line
(`[]byte(header)`), v2 its binary header. -/
def generateHeader (k : ProxyProtocolKind) (clientRemote targetRemote : TCPAddr) : List Nat :=
  match k with
  | ProxyProtocolKind.v1 =>
      (ProxyProtocolV1.Generate ⟨clientRemote.ip, clientRemote.port⟩
        ⟨targetRemote.ip, targetRemote.port⟩).data.map Char.toNat
  | ProxyProtocolKind.v2 =>
      ProxyProtocolV2.Generate ⟨clientRemote.ip, clientRemote.port⟩
        ⟨targetRemote.ip, targetRemote.port⟩

/-- The observable outcome of `forwardTCP` up to the start of its
bidirectional copy phase (which no claim refers to): final world and pool
registry, whether the client connection was closed without a relay
starting, the PROXY header bytes written to the target (if any), and the
target connection the session relays over (if any). -/
structure RelayOutcome where
  world : World
  registry : List (String × TargetPool)
  clientClosed : Bool
  header : Option (List Nat)
  session : Option Conn
deriving DecidableEq, Repr

/-- Go `SetDeadline` with the returned error discarded (the 30-second
deadline statements in `forwardTCP`). -/
def setDeadlineIgnore (w : World) (cid d : Nat) : World :=
  match connSetDeadline w cid d with
  | some w2 => w2
  | none => w

/-- Embeds `forwardTCP`: snapshot the selection under the mutex, fetch or
create the target's pool, `Get` a target connection (closing the client on
failure), set 30-second deadlines on both ends, and — when a PROXY variant
is configured — probe the target connection with `SetDeadline(now+1s)` and
write the encoded header, aborting the session on failure.  The byte-copy
phase and the deferred `Put` after it are beyond the modelled horizon. -/
def forwardTCP (env : DialEnv) (proxyProtocol : Option ProxyProtocolKind)
    (clientId : Nat) (clientRemote : TCPAddr) (sel : String)
    (registry : List (String × TargetPool)) (w : World) : RelayOutcome :=
  let target := sel
  let gp := getOrCreatePool registry target
  let g := TargetPool.Get env w gp.2
  let registry2 := setPool gp.1 target g.2.1
  match g.2.2 with
  | none =>
      { world := g.1, registry := registry2, clientClosed := true,
        header := none, session := none }
  | some tc =>
      let w2 := setDeadlineIgnore
        (setDeadlineIgnore g.1 tc.id (g.1.time + 30)) clientId (g.1.time + 30)
      match proxyProtocol with
      | none =>
          { world := w2, registry := registry2, clientClosed := false,
            header := none, session := some tc }
      | some k =>
          let hdr := generateHeader k clientRemote tc.remote
          match connSetDeadline w2 tc.id (w2.time + 1) with
          | none =>
              { world := w2, registry := registry2, clientClosed := true,
                header := none, session := none }
          | some w3 =>
              let w4 := setDeadlineIgnore w3 tc.id (w3.time + 30)
              { world := w4, registry := registry2, clientClosed := false,
                header := some hdr, session := some tc }

/-- Helper: a dial attempt always logs exactly its address and timeout. -/
theorem netDialTimeout_log (env : DialEnv) (w : World) (addr : String) (n : Nat) :
    (netDialTimeout env w addr n).1.dialLog = w.dialLog ++ [(addr, n)] := by
  unfold netDialTimeout
  by_cases ha : addr = ""
  · simp [ha]
  · rcases he : env addr with _ | r <;> simp [ha, he]

/-- Helper: a successful registry lookup is a registry entry. -/
theorem lookupPool_mem (t : String) (p : TargetPool) :
    ∀ l : List (String × TargetPool), lookupPool l t = some p → (t, p) ∈ l := by
  intro l
  induction l with
  | nil => intro h; simp [lookupPool] at h
  | cons e rest ih =>
    intro h
    by_cases he : e.1 = t
    · simp [lookupPool, he] at h
      have : (t, p) = e := by
        cases e
        simp_all
      rw [this]
      exact List.mem_cons_self _ _
    · simp [lookupPool, he] at h
      exact List.mem_cons_of_mem _ (ih h)

/-- Helper: `Get` on an empty pool for the empty address performs two
guaranteed-failing dials of the empty address and returns no connection. -/
theorem get_empty_addr (env : DialEnv) (w : World) :
    TargetPool.Get env w { addr := "", idle := [] }
      = ({ w with dialLog := w.dialLog ++ [("", 5), ("", 5)] },
         { addr := "", idle := [] }, none) := by
  simp [TargetPool.Get, TargetPool.poolGet, netDialTimeout]

/-- Claim C2: a client connection accepted while the selection is `""`
(every target unhealthy) is closed immediately without any configured
target being dialed or reached: the relay's only dial attempts are two
immediately-failing dials of the empty address — not of any target — no
session starts and no header is written.  The final conjunct ties the
"none" selection to its origin: a probe round that finds every target
unhealthy publishes `""`. -/
theorem relay_rejects_on_none_selection (env : DialEnv)
    (proxyProtocol : Option ProxyProtocolKind) (clientId : Nat)
    (clientRemote : TCPAddr) (registry : List (String × TargetPool)) (w : World)
    (targets : List String) (probeEnv : ProbeEnv)
    (hwf : ∀ e ∈ registry, e.2.addr = e.1)
    (hempty : ∀ e ∈ registry, e.1 = "" → e.2.idle = [])
    (hts : "" ∉ targets) :
    (forwardTCP env proxyProtocol clientId clientRemote "" registry w).clientClosed = true
    ∧ (forwardTCP env proxyProtocol clientId clientRemote "" registry w).session = none
    ∧ (forwardTCP env proxyProtocol clientId clientRemote "" registry w).header = none
    ∧ (forwardTCP env proxyProtocol clientId clientRemote "" registry w).world.dialLog
        = w.dialLog ++ [("", 5), ("", 5)]
    ∧ (∀ t ∈ targets, ∀ k,
        (t, k) ∉ (forwardTCP env proxyProtocol clientId clientRemote "" registry
          w).world.dialLog.drop w.dialLog.length)
    ∧ ((∀ t ∈ targets, ¬ isHealthyT probeEnv t)
        → updateBestTarget probeEnv targets = "") := by
  have hpool2 : (getOrCreatePool registry "").2 = { addr := "", idle := [] } := by
    unfold getOrCreatePool
    cases hlp : lookupPool registry "" with
    | none => rfl
    | some p =>
      have hm := lookupPool_mem "" p registry hlp
      have ha := hwf _ hm
      have hi := hempty _ hm rfl
      simp only at ha hi
      cases p
      simp_all
  have heq : forwardTCP env proxyProtocol clientId clientRemote "" registry w
      = { world := { w with dialLog := w.dialLog ++ [("", 5), ("", 5)] },
          registry := setPool (getOrCreatePool registry "").1 "" { addr := "", idle := [] },
          clientClosed := true, header := none, session := none } := by
    simp only [forwardTCP]
    rw [hpool2, get_empty_addr]
  refine ⟨by rw [heq], by rw [heq], by rw [heq], by rw [heq], ?_, ?_⟩
  · intro t ht k hmem
    rw [heq] at hmem
    simp only [List.drop_left] at hmem
    simp at hmem
    exact hts (hmem.1 ▸ ht)
  · intro hall
    have hzero : targets.countP (fun t => (checkNodeHealth probeEnv t).1.IsHealthy) = 0 := by
      apply List.countP_eq_zero.2
      intro a haa
      exact hall a haa
    have hcnt : (updateLoop probeEnv targets ("", 0, 0)).2.2 = 0 := by
      rw [updateLoop_count probeEnv targets "" 0 0, hzero]
    show (if (updateLoop probeEnv targets ("", 0, 0)).2.2 > 0
        then (updateLoop probeEnv targets ("", 0, 0)).1 else "") = ""
    rw [hcnt]
    simp

/-- Witness for `relay_rejects_on_none_selection` at a concrete empty
registry and a one-target configuration. -/
theorem relay_rejects_on_none_selection_witness :
    (forwardTCP (fun _ => none) (some ProxyProtocolKind.v2) 0 ⟨[1, 2, 3, 4], 9⟩ "" []
        { time := 0, nextId := 0, closedIds := [], deadlines := [], dialLog := [] }).clientClosed
      = true
    ∧ (forwardTCP (fun _ => none) (some ProxyProtocolKind.v2) 0 ⟨[1, 2, 3, 4], 9⟩ "" []
        { time := 0, nextId := 0, closedIds := [], deadlines := [], dialLog := [] }).session
      = none :=
  ⟨(relay_rejects_on_none_selection (fun _ => none) (some ProxyProtocolKind.v2) 0
      ⟨[1, 2, 3, 4], 9⟩ [] _ ["T:1"] (fun _ => none)
      (by simp) (by simp) (by decide)).1,
   (relay_rejects_on_none_selection (fun _ => none) (some ProxyProtocolKind.v2) 0
      ⟨[1, 2, 3, 4], 9⟩ [] _ ["T:1"] (fun _ => none)
      (by simp) (by simp) (by decide)).2.1⟩

/-- Claim C8 (amended): a connection `Put` while open joins the idle set
and is exactly the connection the next `Get` on that pool returns — no
matter how much time has passed, because the liveness check is
`SetDeadline(now+1s)`, which fails only for closed connections; the idle
deadline recorded at `Put` does not by itself prevent reuse after expiry,
and no fresh dial happens.  When the pooled connection is closed, `Get`
discards it and dials fresh with the 5-second timeout. -/
theorem pool_put_get_liveness (env : DialEnv) (w : World) (p : TargetPool)
    (c : Conn) (hopen : c.id ∉ w.closedIds) (t2 : Nat) :
    ((TargetPool.Get env { (TargetPool.Put w p (some c)).1 with time := t2 }
        (TargetPool.Put w p (some c)).2).2.2 = some c
      ∧ (TargetPool.Get env { (TargetPool.Put w p (some c)).1 with time := t2 }
          (TargetPool.Put w p (some c)).2).1.dialLog = w.dialLog
      ∧ (TargetPool.Put w p (some c)).1.deadlines = setAssoc w.deadlines c.id (w.time + 1))
    ∧ (∀ c2 : Conn, ∀ w3 : World, c2.id ∈ w3.closedIds →
        (TargetPool.Get env w3 { p with idle := [c2] }).1.dialLog
          = w3.dialLog ++ [(p.addr, 5)]) := by
  constructor
  · refine ⟨?_, ?_, ?_⟩ <;>
      simp [TargetPool.Put, TargetPool.Get, TargetPool.poolGet, connSetDeadline, hopen]
  · intro c2 w3 hcl
    simp [TargetPool.Get, TargetPool.poolGet, connSetDeadline, hcl, connClose,
      netDialTimeout_log]

/-- Concrete open connection for the pool scenarios. -/
def c8conn : Conn := { id := 0, remote := { ip := [10, 0, 0, 1], port := 9 } }

/-- Concrete initial world for the pool scenarios. -/
def c8w0 : World :=
  { time := 0, nextId := 1, closedIds := [], deadlines := [], dialLog := [] }

/-- Concrete empty pool for the pool scenarios. -/
def c8pool0 : TargetPool := { addr := "10.0.0.1:9", idle := [] }

/-- The world after `Put`, with the clock advanced far past the 1-second
idle deadline. -/
def c8w1 : World := { (TargetPool.Put c8w0 c8pool0 (some c8conn)).1 with time := 100 }

/-- Counterexample to claim C8 as stated: the connection is `Put` at time 0
with idle deadline 1, and `Get` runs at time 100 — long after expiry — yet
still returns the very same pooled connection and dials nothing fresh. -/
theorem pool_reuse_after_expiry_counterexample :
    ((TargetPool.Put c8w0 c8pool0 (some c8conn)).1.deadlines = [(0, 1)]
      ∧ c8w1.time = 100)
    ∧ (TargetPool.Get (fun _ => none) c8w1
        (TargetPool.Put c8w0 c8pool0 (some c8conn)).2).2.2 = some c8conn
    ∧ (TargetPool.Get (fun _ => none) c8w1
        (TargetPool.Put c8w0 c8pool0 (some c8conn)).2).1.dialLog = [] := by
  decide

/-- Witness for `pool_put_get_liveness` at the concrete pool scenario. -/
theorem pool_put_get_liveness_witness :
    (TargetPool.Get (fun _ => none) { (TargetPool.Put c8w0 c8pool0 (some c8conn)).1 with time := 100 }
        (TargetPool.Put c8w0 c8pool0 (some c8conn)).2).2.2 = some c8conn :=
  ((pool_put_get_liveness (fun _ => none) c8w0 c8pool0 c8conn (by decide) 100).1).1

/-- Claim C10: the `proxyProtocol` configuration value is matched
case-insensitively — any string lowering to `v1` or `v2` selects the
corresponding encoder (e.g. `"V2"`), and every other string, including the
empty string, yields the nil encoder, in which case `forwardTCP` writes no
header at all. -/
theorem proxyProtocol_case_insensitive :
    (∀ s : String, asciiLower s = "v1" → getProxyProtocol s = some ProxyProtocolKind.v1)
    ∧ (∀ s : String, asciiLower s = "v2" → getProxyProtocol s = some ProxyProtocolKind.v2)
    ∧ (∀ s : String, asciiLower s ≠ "v1" → asciiLower s ≠ "v2" → getProxyProtocol s = none)
    ∧ getProxyProtocol "V2" = some ProxyProtocolKind.v2
    ∧ getProxyProtocol "" = none
    ∧ (∀ env clientId clientRemote sel registry w,
        (forwardTCP env none clientId clientRemote sel registry w).header = none) := by
  refine ⟨?_, ?_, ?_, by decide, by decide, ?_⟩
  · intro s h
    simp [getProxyProtocol, h]
  · intro s h
    simp [getProxyProtocol, h]
  · intro s h1 h2
    simp [getProxyProtocol, h1, h2]
  · intro env clientId clientRemote sel registry w
    unfold forwardTCP
    rcases hg : (TargetPool.Get env w (getOrCreatePool registry sel).2).2.2 with _ | tc <;>
      simp [hg]

/-- Witness for `proxyProtocol_case_insensitive`: the mixed-case `"V1"`
selects the v1 encoder. -/
theorem proxyProtocol_case_insensitive_witness :
    getProxyProtocol "V1" = some ProxyProtocolKind.v1 :=
  proxyProtocol_case_insensitive.1 "V1" (by decide)

end ForwardOptimal
